import Mathlib

/-!
# Verification of the YOAKE membership-service backend

Shallow embedding, in Lean 4, of the core operations of the YOAKE
repository: the visit-analytics aggregator (`getVisitStatsForUser`,
`getVisitAnalyticsForUser`, `getMembershipCardData` in
`server/src/services/databse.ts`), the check-in / visit-survey workflow
(`POST /api/check-in`, `POST /api/submit-visit-survey` in
`server/src/routes/user.ts`), and the registration / account-linking
orchestrations (`POST /api/register`, `POST /api/link-line-account` in
`server/src/routes/auth.ts`, with `parseLineIdToken` and
`validateRegistrationData` from `server/src/utils/index.ts`).

JavaScript plain objects used as counters (`Record<string, number>`) are
embedded as association lists in key-insertion order, which is exactly
the enumeration order of `Object.keys` on such objects.  Timestamps are
natural numbers (seconds since epoch); ISO-string comparisons in the
source are order-isomorphic to comparisons of these numbers.
-/

/-- One step of the JS counter-object update `obj[k] = (obj[k] || 0) + 1`:
if the key is present its count is bumped in place, otherwise the key is
appended (JS objects keep insertion order). -/
def insertCount : List (String × Nat) → String → List (String × Nat)
  | [], s => [(s, 1)]
  | (k, n) :: rest, s =>
      if k = s then (k, n + 1) :: rest else (k, n) :: insertCount rest s

/-- Counter object built from a list of string occurrences, as by JS
`arr.reduce((acc, x) => { acc[x] = (acc[x] || 0) + 1; return acc }, {})`.
Both `countBy` (middleware/utils) and the chart accumulations in
`getVisitAnalyticsForUser` reduce to this. -/
def countStr (ss : List String) : List (String × Nat) :=
  ss.foldl insertCount []

/-- Property lookup `obj[k]` on the embedded counter object:
`some n` when the key is present, `none` (JS `undefined`) otherwise. -/
def assocLookup (s : String) : List (String × Nat) → Option Nat
  | [] => none
  | (k, n) :: rest => if k = s then some n else assocLookup s rest

/-- `Object.keys` on the embedded object: keys in insertion order. -/
def keysOf (l : List (String × Nat)) : List String :=
  l.map Prod.fst

/-- JS `a > b` on two property lookups: `undefined` compares false against
everything, numbers compare numerically. -/
def jsGt : Option Nat → Option Nat → Bool
  | some a, some b => decide (b < a)
  | _, _ => false

/-- JS `x || dflt` for a nullable string `x`: the default is taken both
when `x` is null/undefined and when it is the empty string (falsy). -/
def jsOrStr (x : Option String) (dflt : String) : String :=
  match x with
  | some s => if s = "" then dflt else s
  | none => dflt

/-- A row of the `visits` query in `databse.ts` (`select * , stores(name)`
for one user, ordered by `check_in_at` descending).  `store_name` is the
joined `stores.name` (null when the join finds nothing), the companion
arrays and `visit_purpose` are nullable columns. -/
structure VisitRow where
  store_id : String
  check_in_at : Nat
  store_name : Option String := none
  visit_purpose : Option String := none
  companion_industries : Option (List String) := none
  companion_job_types : Option (List String) := none
  deriving Repr, DecidableEq

/-- `countBy(visitsData, 'store_id')` from the shared utils: counts
visits per store id, keys in first-occurrence order. -/
def countByStoreId (vs : List VisitRow) : List (String × Nat) :=
  countStr (vs.map (·.store_id))

/-- The reducer body `(a, b) => storeCounts[a] > storeCounts[b] ? a : b`
of the favorite-store selection, over a fixed counter object `C`. -/
def favStep (C : List (String × Nat)) (a b : String) : String :=
  if jsGt (assocLookup a C) (assocLookup b C) then a else b

/-- The favorite-store selection in `getVisitStatsForUser`:
`Object.keys(storeCounts).reduce((a, b) => storeCounts[a] > storeCounts[b] ? a : b, '')`. -/
def favoriteStoreId (vs : List VisitRow) : String :=
  let storeCounts := countByStoreId vs
  (keysOf storeCounts).foldl (favStep storeCounts) ""

/-- `visitsData.find(v => v.store_id === favoriteStoreId)?.stores?.name || 'N/A'`. -/
def favoriteStore (vs : List VisitRow) : String :=
  match vs.find? (fun v => v.store_id = favoriteStoreId vs) with
  | some v => jsOrStr v.store_name "N/A"
  | none => "N/A"

/-- `visitsData.slice(0, 5).map(visit => ({date: visit.check_in_at,
storeName: visit.stores?.name || 'Unknown Store'}))` — the code takes the
first five rows of the descending-ordered history. -/
def recentVisits (vs : List VisitRow) : List (Nat × String) :=
  (vs.take 5).map (fun v => (v.check_in_at, jsOrStr v.store_name "Unknown Store"))

/-- Result record of `getVisitStatsForUser`. -/
structure VisitStats where
  totalVisits : Nat
  favoriteStore : String
  recentVisits : List (Nat × String)
  deriving Repr, DecidableEq

/-- `getVisitStatsForUser` over the user's visit rows (the supabase query
returns them ordered by `check_in_at` descending; the row list passed in
is that query result). -/
def getVisitStatsForUser (vs : List VisitRow) : VisitStats :=
  { totalVisits := vs.length
    favoriteStore := favoriteStore vs
    recentVisits := recentVisits vs }

/-- The companion-industry accumulation of `getVisitAnalyticsForUser`:
`visits.forEach(v => { if (v.companion_industries)
v.companion_industries.forEach(i => data[i] = (data[i] || 0) + 1) })`.
A null array is skipped (an empty array is truthy in JS and contributes
nothing). -/
def chartOf (f : VisitRow → Option (List String)) (vs : List VisitRow) : List (String × Nat) :=
  vs.foldl
    (fun acc v =>
      match f v with
      | some arr => arr.foldl insertCount acc
      | none => acc) []

/-- The visit-purpose accumulation of `getVisitAnalyticsForUser`:
`if (visit.visit_purpose) ...` — null and the empty string (both falsy)
are skipped. -/
def chartPurpose (vs : List VisitRow) : List (String × Nat) :=
  vs.foldl
    (fun acc v =>
      match v.visit_purpose with
      | some p => if p = "" then acc else insertCount acc p
      | none => acc) []

/-- Result record of `getVisitAnalyticsForUser`. -/
structure ChartsData where
  companionIndustry : List (String × Nat)
  companionJobType : List (String × Nat)
  visitPurpose : List (String × Nat)
  deriving Repr, DecidableEq

/-- `getVisitAnalyticsForUser` over the user's visit rows. -/
def getVisitAnalyticsForUser (vs : List VisitRow) : ChartsData :=
  { companionIndustry := chartOf (·.companion_industries) vs
    companionJobType := chartOf (·.companion_job_types) vs
    visitPurpose := chartPurpose vs }

/-- Count read out of a chart: `charts.x[label]` with absent keys read
as zero. -/
def chartCount (label : String) (chart : List (String × Nat)) : Nat :=
  (assocLookup label chart).getD 0

/-- The flattened companion labels of a visit list, missing/null arrays
treated as empty. -/
def flatLabels (f : VisitRow → Option (List String)) (vs : List VisitRow) : List String :=
  vs.flatMap (fun v => (f v).getD [])

/-- The non-empty visit-purpose values of a visit list. -/
def purposeLabels (vs : List VisitRow) : List String :=
  vs.filterMap (fun v =>
    match v.visit_purpose with
    | some p => if p = "" then none else some p
    | none => none)

/- ### First-occurrence order of keys and visit recency -/

/-- The store ids of a visit list, in list order. -/
def storeIds (vs : List VisitRow) : List String :=
  vs.map (·.store_id)

/-- Number of visits to store `s` in the history. -/
def countStore (s : String) (vs : List VisitRow) : Nat :=
  (storeIds vs).count s

/-- Index of the first occurrence of a string in a string list. -/
def idxS (s : String) : List String → Nat
  | [] => 0
  | t :: ts => if t = s then 0 else idxS s ts + 1

/-- Index of the first visit to store `s` in the history. -/
def fIdx (s : String) : List VisitRow → Nat
  | [] => 0
  | v :: vs => if v.store_id = s then 0 else fIdx s vs + 1

/-- `check_in_at` of the first visit to store `s`; on a history ordered
by `check_in_at` descending this is the store's most recent check-in. -/
def mostRecent (s : String) : List VisitRow → Nat
  | [] => 0
  | v :: vs => if v.store_id = s then v.check_in_at else mostRecent s vs

/-- The history is ordered by `check_in_at` strictly descending, as the
supabase query orders it (strictness = pairwise-distinct timestamps). -/
def SortedDesc (vs : List VisitRow) : Prop :=
  List.Pairwise (fun u w => w.check_in_at < u.check_in_at) vs

instance (vs : List VisitRow) : Decidable (SortedDesc vs) := by
  unfold SortedDesc; infer_instance

/-- Tie case with two stores, one visit each, "s2" the more recent:
the spec claims the tied leader with the LATEST recent check-in ("s2")
is chosen; the code chooses "s1", the tied leader with the EARLIEST
recent check-in. -/
def c1visits : List VisitRow :=
  [{ store_id := "s2", check_in_at := 10 }, { store_id := "s1", check_in_at := 5 }]

/-- Scenario C input: three visits with companion industries
`[["IT"], ["IT","finance"], []]`. -/
def c7visits : List VisitRow :=
  [{ store_id := "s1", check_in_at := 30, companion_industries := some ["IT"] },
   { store_id := "s1", check_in_at := 20, companion_industries := some ["IT", "finance"] },
   { store_id := "s1", check_in_at := 10, companion_industries := some [] }]

/-- A three-visit history (descending, distinct stores and times). -/
def c8visits : List VisitRow :=
  [{ store_id := "s1", check_in_at := 30 },
   { store_id := "s2", check_in_at := 20 },
   { store_id := "s3", check_in_at := 10 }]

/- ### Users and the membership card -/

/-- A row of the `users` table (the columns the verified operations
read or write; generated ids are naturals in place of UUID strings). -/
structure UserRec where
  id : Nat
  email : String
  line_user_id : Option String := none
  stripe_customer_id : Option Nat := none
  deriving Repr, DecidableEq

/-- `getUserByLineId`: `select * from users where line_user_id = eq.(lid)`,
null when no row matches. -/
def getUserByLineId (users : List UserRec) (lid : String) : Option UserRec :=
  users.find? (fun u => decide (u.line_user_id = some lid))

/-- `getUserByEmail`: `select * from users where email = eq.(email)`. -/
def getUserByEmail (users : List UserRec) (email : String) : Option UserRec :=
  users.find? (fun u => decide (u.email = email))

/-- Result of `getMembershipCardData` (the mock profile block carries the
constant placeholder name from the source). -/
structure MembershipCardData where
  profileName : String
  stats : VisitStats
  charts : ChartsData
  deriving Repr, DecidableEq

/-- `getMembershipCardData(lineUserId)`: resolve the user by LINE id
(null when absent), then aggregate stats and charts over that user's
visit rows (`rows` is the fetched history of the resolved user, ordered
`check_in_at` descending). -/
def getMembershipCardData (users : List UserRec) (lid : String) (rows : List VisitRow) :
    Option MembershipCardData :=
  match getUserByLineId users lid with
  | none => none
  | some _ =>
      some { profileName := "ユーザー"
             stats := getVisitStatsForUser rows
             charts := getVisitAnalyticsForUser rows }

/-- A single linked user with no visits. -/
def c10users : List UserRec :=
  [{ id := 1, email := "a@x.com", line_user_id := some "L1" }]

/- ### The persistent store and the orchestrated operations -/

/-- A row of the `stores` table. -/
structure StoreRec where
  id : String
  name : String
  deriving Repr, DecidableEq

/-- A row of the `visits` table (ids are naturals in place of UUIDs;
`createVisit` leaves the survey columns null). -/
structure VisitRec where
  id : Nat
  user_id : Nat
  store_id : String
  check_in_at : Nat
  visit_type : Option String := none
  visit_purpose : Option String := none
  companion_industries : Option (List String) := none
  companion_job_types : Option (List String) := none
  deriving Repr, DecidableEq

/-- The relational store plus the payment provider's customer records.
`nextId` generates fresh ids (the model of `generateUUID`: every
generated id is distinct from all earlier ones). -/
structure DB where
  users : List UserRec := []
  stores : List StoreRec := []
  visits : List VisitRec := []
  customers : List (Nat × String) := []
  nextId : Nat := 0
  deriving Repr, DecidableEq

/-- The error kinds surfaced by the routes (HTTP statuses in the source:
validation 400, auth 401, conflict 409, notFound 404, payment/storage/
internal 500 — kept distinct here by their origin). -/
inductive ApiError where
  | validation
  | auth
  | conflict
  | notFound
  | payment
  | storage
  | internal
  deriving Repr, DecidableEq

instance exceptDecEq {e a : Type} [DecidableEq e] [DecidableEq a] :
    DecidableEq (Except e a)
  | .error x, .error y =>
      if h : x = y then .isTrue (by rw [h]) else .isFalse (fun hc => h (Except.error.inj hc))
  | .error _, .ok _ => .isFalse (fun hc => Except.noConfusion hc)
  | .ok _, .error _ => .isFalse (fun hc => Except.noConfusion hc)
  | .ok x, .ok y =>
      if h : x = y then .isTrue (by rw [h]) else .isFalse (fun hc => h (Except.ok.inj hc))

/-- Start of the current UTC day:
`new Date().toISOString().split('T')[0]` + "T00:00:00Z". -/
def dayStart (now : Nat) : Nat :=
  now - now % 86400

/-- `POST /api/check-in` of `routes/user.ts`: resolve the user by LINE id
and the store by id (404 each), fetch the user's visits of the current
UTC calendar day (`dateFrom` = today 00:00:00, `dateTo` = today
23:59:59), reject 409 when one of them is at this store, otherwise
insert a fresh Visit with `check_in_at = now`. -/
def checkIn (now : Nat) (lineUserId storeId : String) (s : DB) :
    Except ApiError (Nat × DB) :=
  if lineUserId = "" ∨ storeId = "" then .error .validation
  else
    match getUserByLineId s.users lineUserId with
    | none => .error .notFound
    | some u =>
      match s.stores.find? (fun st => decide (st.id = storeId)) with
      | none => .error .notFound
      | some _ =>
        let existingVisits := s.visits.filter (fun v =>
          decide (v.user_id = u.id ∧
            dayStart now ≤ v.check_in_at ∧ v.check_in_at ≤ dayStart now + 86399))
        match existingVisits.find? (fun v => decide (v.store_id = storeId)) with
        | some _ => .error .conflict
        | none =>
          let visit : VisitRec :=
            { id := s.nextId, user_id := u.id, store_id := storeId, check_in_at := now }
          .ok (visit.id, { s with visits := s.visits ++ [visit], nextId := s.nextId + 1 })

/-- `POST /api/submit-visit-survey` of `routes/user.ts`: presence check
on visitType/visitPurpose (400), resolve the Visit (404), then
`updateVisit` with `visit_type` mapped from the literal `'１人です'` to
`'single'` (anything else to `'group'`) and the companion arrays forced
empty for `'１人です'`. -/
def submitVisitSurvey (visitId : Nat) (visitType visitPurpose : String)
    (ci cj : List String) (s : DB) : Except ApiError (Nat × DB) :=
  if visitType = "" ∨ visitPurpose = "" then .error .validation
  else
    match s.visits.find? (fun v => decide (v.id = visitId)) with
    | none => .error .notFound
    | some _ =>
      let updated := s.visits.map (fun v =>
        if v.id = visitId then
          { v with
            visit_type := some (if visitType = "１人です" then "single" else "group")
            visit_purpose := some visitPurpose
            companion_industries := some (if visitType = "１人です" then [] else ci)
            companion_job_types := some (if visitType = "１人です" then [] else cj) }
        else v)
      .ok (visitId, { s with visits := updated })

/-- `POST /api/link-line-account` of `routes/auth.ts` together with
`db.linkLineAccount`: presence check (400), resolve the user by email
(404), reject 409 when the LINE id is already linked to a DIFFERENT
user, otherwise update the email-resolved user's `line_user_id`. -/
def linkLineAccount (email lineUserId : String) (s : DB) : Except ApiError (Nat × DB) :=
  if email = "" ∨ lineUserId = "" then .error .validation
  else
    match getUserByEmail s.users email with
    | none => .error .notFound
    | some u =>
      let conflicting :=
        match getUserByLineId s.users lineUserId with
        | some ex => decide (ex.id ≠ u.id)
        | none => false
      if conflicting then .error .conflict
      else
        .ok (u.id,
          { s with users := s.users.map (fun x =>
              if x.id = u.id then { x with line_user_id := some lineUserId } else x) })

/- ### Registration -/

/-- The LINE id token as the server observes it: absent/empty (falsy),
not a decodable three-part JWT, or a decodable payload carrying subject,
display name and an expiry the code never reads. -/
inductive Tok where
  | missing
  | garbled
  | payload (sub : String) (uname : String) (exp : Option Nat)
  deriving Repr, DecidableEq

/-- `parseLineIdToken` of `utils/index.ts`: base64-decodes the JWT
payload WITHOUT verifying the signature or checking `exp`, returning the
claims for any decodable token and null (here `none`) otherwise — it
never throws. -/
def parseLineIdToken : Tok → Option (String × String)
  | .missing => none
  | .garbled => none
  | .payload sub uname _ => some (sub, uname)

/-- The registration survey payload (the fields the validator and the
persistence steps read). -/
structure SurveyData where
  email : String
  phone : String := ""
  gender : String := ""
  birthDate : String := ""
  industry : String := ""
  jobType : String := ""
  experienceYears : String := ""
  deriving Repr, DecidableEq

/-- Split a character list at every occurrence of `c` (the pieces of
JS `str.split(c)`). -/
def splitOnChar (c : Char) : List Char → List (List Char)
  | [] => [[]]
  | x :: xs =>
      let r := splitOnChar c xs
      if x = c then [] :: r
      else
        match r with
        | [] => [[x]]
        | y :: ys => (x :: y) :: ys

/-- The email regex `^[^\s@]+@[^\s@]+\.[^\s@]+$` of `validateEmail`:
exactly one `@`, a non-empty whitespace-free local part, and a
whitespace-free domain containing a dot that is neither first nor last. -/
def emailFormatOk (e : String) : Bool :=
  match splitOnChar '@' e.toList with
  | [lp, dom] =>
      !lp.isEmpty && lp.all (fun ch => !ch.isWhitespace) &&
      !dom.isEmpty && dom.all (fun ch => !ch.isWhitespace) &&
      dom.contains '.' && !(dom.head? == some '.') && !(dom.getLast? == some '.')
  | _ => false

/-- `validateBirthDate`: the JS `new Date(birthDate)` year is modelled
as the leading 4-digit ISO year of the string; the age
`nowYear - birthYear` must lie in [13, 100]. -/
def validateBirthDate (nowYear : Nat) (birthDate : String) : Bool :=
  let ys := birthDate.toList.take 4
  if ys.length = 4 && ys.all (·.isDigit) then
    let y := ys.foldl (fun n ch => n * 10 + (ch.toNat - 48)) 0
    decide (13 ≤ nowYear - y ∧ nowYear - y ≤ 100)
  else false

/-- `validateRegistrationData` of `utils/index.ts`: the five required
fields are present (non-empty), the email matches the regex and the
birth date passes the age check; `isValid` is the conjunction (the
collected error list is empty). -/
def validateRegistrationData (nowYear : Nat) (d : SurveyData) : Bool :=
  decide (d.email ≠ "") && decide (d.birthDate ≠ "") && decide (d.industry ≠ "") &&
  decide (d.jobType ≠ "") && decide (d.experienceYears ≠ "") &&
  emailFormatOk d.email && validateBirthDate nowYear d.birthDate

/-- Failure behavior of the external collaborators during one register
call: the payment provider may reject customer creation, and either the
`users` insert or the follow-up profile/survey inserts may fail. -/
structure RegEnv where
  stripeFails : Bool := false
  userInsertFails : Bool := false
  profileSurveyFails : Bool := false
  deriving Repr, DecidableEq

/-- One invocation of `POST /api/register`. -/
structure RegCall where
  env : RegEnv := {}
  idToken : Tok
  surveyData : SurveyData
  deriving Repr, DecidableEq

/-- `POST /api/register` of `routes/auth.ts`, in source order: presence
check on `idToken` (400), `validateRegistrationData` (400),
`parseLineIdToken` (never fails by itself), `getUserByEmail` conflict
gate (409), then the Stripe customer creation — where a null parse
result raises the `TypeError` of `lineProfile.name`, caught as a
generic 500 — then `createUser`, `createProfile`/`createSurvey`.  A
failure after customer creation keeps the created customer in the state
(no rollback). -/
def register (nowYear : Nat) (c : RegCall) (s : DB) : Except ApiError Nat × DB :=
  match c.idToken with
  | .missing => (.error .validation, s)
  | tok =>
    if validateRegistrationData nowYear c.surveyData then
      match getUserByEmail s.users c.surveyData.email with
      | some _ => (.error .conflict, s)
      | none =>
        match parseLineIdToken tok with
        | none => (.error .internal, s)
        | some _ =>
          if c.env.stripeFails then (.error .payment, s)
          else
            let custId := s.nextId
            let s1 : DB :=
              { s with customers := s.customers ++ [(custId, c.surveyData.email)]
                       nextId := s.nextId + 1 }
            if c.env.userInsertFails then (.error .storage, s1)
            else
              let user : UserRec :=
                { id := s1.nextId, email := c.surveyData.email
                  line_user_id := none, stripe_customer_id := some custId }
              let s2 : DB := { s1 with users := s1.users ++ [user], nextId := s1.nextId + 1 }
              if c.env.profileSurveyFails then (.error .storage, s2)
              else (.ok custId, s2)
    else (.error .validation, s)

/-- Run a sequence of register calls, threading the store. -/
def regTrace (nowYear : Nat) (cs : List RegCall) (s : DB) : DB :=
  cs.foldl (fun st c => (register nowYear c st).2) s

/-- Number of payment customers whose email is `E`. -/
def customersWith (E : String) (s : DB) : Nat :=
  s.customers.countP (fun c => decide (c.2 = E))

/-- Whether some persisted user carries email `E`. -/
def userWith (E : String) (s : DB) : Bool :=
  (getUserByEmail s.users E).isSome

/-- A malformed token together with an invalid survey payload. -/
def c6badcall : RegCall :=
  { idToken := .garbled, surveyData := { email := "" } }

/-- A store already holding the user a(at)x.com. -/
def c6db : DB :=
  { users := [{ id := 1, email := "a@x.com" }], nextId := 2 }

/-- A well-formed registration payload. -/
def c3survey : SurveyData :=
  { email := "a@x.com", birthDate := "1990-01-01", industry := "IT"
    jobType := "engineer", experienceYears := "5" }

/-- A register call with a decodable (already expired) token and a valid
payload. -/
def c3call : RegCall :=
  { idToken := .payload "sub1" "Taro" (some 0), surveyData := c3survey }

/-- A store with one user linked to LINE id "L1", one store, and one
visit late on UTC day 0 (23:30). -/
def c2db : DB :=
  { users := [{ id := 1, email := "a@x.com", line_user_id := some "L1" }]
    stores := [{ id := "store1", name := "Store One" }]
    visits := [{ id := 0, user_id := 1, store_id := "store1", check_in_at := 84600 }]
    nextId := 5 }

/-- A store whose only user is already bound to LINE id "A". -/
def c5db : DB :=
  { users := [{ id := 1, email := "a@x.com", line_user_id := some "A" }], nextId := 2 }

/- ### Visit survey -/

/-- The companion arrays of a visit as a later read returns them
(null read as empty, like the analytics do). -/
def visitCompanions (s : DB) (vid : Nat) : List String × List String :=
  match s.visits.find? (fun v => decide (v.id = vid)) with
  | some v => (v.companion_industries.getD [], v.companion_job_types.getD [])
  | none => ([], [])

/-- The stored-data invariant of C9: any visit marked `single` carries
empty companion arrays. -/
def CompanionInv (s : DB) : Prop :=
  ∀ v ∈ s.visits, v.visit_type = some "single" →
    v.companion_industries = some [] ∧ v.companion_job_types = some []

instance (s : DB) : Decidable (CompanionInv s) := by
  unfold CompanionInv; infer_instance

/-- A checked-in visit awaiting its survey. -/
def c9row : VisitRec := { id := 7, user_id := 1, store_id := "s", check_in_at := 100 }

/-- A store holding just that visit. -/
def c9db : DB := { visits := [c9row], nextId := 8 }

/-- The visit after a survey with the English word "single" as
visitType: stored as `group`, companion arrays kept. -/
def c9upd : VisitRec :=
  { id := 7, user_id := 1, store_id := "s", check_in_at := 100
    visit_type := some "group", visit_purpose := some "networking"
    companion_industries := some ["IT"], companion_job_types := some ["dev"] }

/-- The store after that survey. -/
def c9s2 : DB := { c9db with visits := [c9upd] }

/- ### Association-list bridge lemmas -/

theorem assocLookup_insertCount (acc : List (String × Nat)) (t s : String) :
    assocLookup s (insertCount acc t) =
      if s = t then some ((assocLookup s acc).getD 0 + 1) else assocLookup s acc := by
  induction acc with
  | nil =>
    by_cases h : s = t
    · subst h; simp [insertCount, assocLookup]
    · have h2 : ¬ t = s := fun e => h e.symm
      simp [insertCount, assocLookup, h, h2]
  | cons kv rest ih =>
    obtain ⟨k, n⟩ := kv
    by_cases hkt : k = t
    · subst hkt
      by_cases hks : k = s
      · subst hks; simp [insertCount, assocLookup]
      · have hsk : ¬ s = k := fun e => hks e.symm
        simp [insertCount, assocLookup, hks, hsk]
    · by_cases hks : k = s
      · cases hks
        simp [insertCount, assocLookup, hkt]
      · simp [insertCount, assocLookup, hkt, hks, ih]

theorem assocLookup_foldl_insertCount (ss : List String) (acc : List (String × Nat))
    (s : String) :
    assocLookup s (ss.foldl insertCount acc) =
      if (assocLookup s acc).getD 0 + ss.count s = 0 ∧ assocLookup s acc = none then none
      else some ((assocLookup s acc).getD 0 + ss.count s) := by
  induction ss generalizing acc with
  | nil =>
    cases h : assocLookup s acc <;> simp [h]
  | cons t ts ih =>
    rw [List.foldl_cons, ih, assocLookup_insertCount]
    by_cases hst : s = t
    · subst hst
      simp [List.count_cons, Nat.add_comm, Nat.add_assoc, Nat.add_left_comm]
    · have : ¬ (t = s) := fun h => hst h.symm
      simp [List.count_cons, hst, Ne.symm hst]

/-- Lookup on a counter object: present keys map to their occurrence
count, absent keys to `undefined`. -/
theorem assocLookup_countStr (ss : List String) (s : String) :
    assocLookup s (countStr ss) =
      if s ∈ ss then some (ss.count s) else none := by
  have h := assocLookup_foldl_insertCount ss [] s
  simp only [countStr, assocLookup, Option.getD_none, Nat.zero_add, and_true] at h ⊢
  rw [h]
  by_cases hmem : s ∈ ss
  · have hne : ¬ ss.count s = 0 := by
      simpa [List.count_eq_zero] using hmem
    simp [hne, hmem]
  · have hz : ss.count s = 0 := List.count_eq_zero.mpr hmem
    simp [hz, hmem]

theorem keysOf_insertCount (acc : List (String × Nat)) (t : String) :
    keysOf (insertCount acc t) =
      if t ∈ keysOf acc then keysOf acc else keysOf acc ++ [t] := by
  induction acc with
  | nil => simp [insertCount, keysOf]
  | cons kv rest ih =>
    obtain ⟨k, n⟩ := kv
    by_cases hkt : k = t
    · subst hkt
      simp [insertCount, keysOf]
    · have htk : ¬ t = k := fun h => hkt h.symm
      simp only [insertCount, if_neg hkt, keysOf, List.map_cons] at ih ⊢
      rw [ih]
      by_cases hmem : t ∈ List.map Prod.fst rest
      · simp [List.mem_cons, htk, hmem]
      · simp [List.mem_cons, htk, hmem]

theorem mem_keysOf_countStr (ss : List String) (s : String) :
    s ∈ keysOf (countStr ss) ↔ s ∈ ss := by
  have hiff : (assocLookup s (countStr ss)).isSome ↔ s ∈ keysOf (countStr ss) := by
    induction countStr ss with
    | nil => simp [assocLookup, keysOf]
    | cons kv rest ih =>
      obtain ⟨k, n⟩ := kv
      by_cases hks : k = s
      · subst hks; simp [assocLookup, keysOf]
      · have : ¬ (s = k) := fun h => hks h.symm
        simp [assocLookup, keysOf, hks, this, ih]
  rw [← hiff, assocLookup_countStr]
  by_cases hmem : s ∈ ss <;> simp [hmem]

/- ### The JS `reduce` that selects the favorite store -/

theorem jsGt_none_left (x : Option Nat) : jsGt none x = false := by
  cases x <;> rfl

theorem jsGt_none_right (x : Option Nat) : jsGt x none = false := by
  cases x <;> rfl

theorem jsGt_irrefl (x : Option Nat) : jsGt x x = false := by
  cases x <;> simp [jsGt]

/-- The accumulator never strictly beats the result of the reduce, as long
as every remaining key has a defined count. -/
theorem favStep_foldl_acc (C : List (String × Nat)) (ks : List String) (a0 : String)
    (hks : ∀ k ∈ ks, (assocLookup k C).isSome = true) :
    jsGt (assocLookup a0 C) (assocLookup (ks.foldl (favStep C) a0) C) = false := by
  induction ks generalizing a0 with
  | nil => exact jsGt_irrefl _
  | cons k ks ih =>
    rw [List.foldl_cons]
    by_cases h : jsGt (assocLookup a0 C) (assocLookup k C) = true
    · have hstep : favStep C a0 k = a0 := by simp [favStep, h]
      rw [hstep]
      exact ih a0 (fun j hj => hks j (List.mem_cons_of_mem _ hj))
    · have hstep : favStep C a0 k = k := by
        simp only [favStep, ite_eq_right_iff]
        intro hc; exact absurd hc h
      rw [hstep]
      have hkr := ih k (fun j hj => hks j (List.mem_cons_of_mem _ hj))
      cases ca : assocLookup a0 C with
      | none => exact jsGt_none_left _
      | some x =>
        obtain ⟨y, hy⟩ := Option.isSome_iff_exists.mp (hks k (List.mem_cons_self _ _))
        rw [ca, hy] at h
        have hxy : x ≤ y := by
          by_contra hlt
          exact h (by simp [jsGt]; omega)
        cases cr : assocLookup (ks.foldl (favStep C) k) C with
        | none => exact jsGt_none_right _
        | some z =>
          rw [hy, cr] at hkr
          have hyz : y ≤ z := by
            by_contra hlt
            simp [jsGt] at hkr; omega
          simp [jsGt]; omega

/-- No key strictly beats the result of the reduce: the result's count is
maximal among all keys (all of which have defined counts). -/
theorem favStep_foldl_max (C : List (String × Nat)) (ks : List String) (a0 : String)
    (hks : ∀ k ∈ ks, (assocLookup k C).isSome = true) :
    ∀ k ∈ ks, jsGt (assocLookup k C) (assocLookup (ks.foldl (favStep C) a0) C) = false := by
  induction ks generalizing a0 with
  | nil => intro k hk; cases hk
  | cons k ks ih =>
    intro j hj
    rw [List.foldl_cons]
    rcases List.mem_cons.mp hj with hjk | hjks
    · subst hjk
      by_cases h : jsGt (assocLookup a0 C) (assocLookup j C) = true
      · have hstep : favStep C a0 j = a0 := by simp [favStep, h]
        rw [hstep]
        have hacc := favStep_foldl_acc C ks a0
          (fun i hi => hks i (List.mem_cons_of_mem _ hi))
        obtain ⟨y, hy⟩ := Option.isSome_iff_exists.mp (hks j (List.mem_cons_self _ _))
        cases ca : assocLookup a0 C with
        | none => rw [ca] at h; rw [jsGt_none_left] at h; cases h
        | some x =>
          rw [ca, hy] at h
          have hyx : y < x := by
            by_contra hlt
            simp [jsGt] at h; omega
          cases cr : assocLookup (ks.foldl (favStep C) a0) C with
          | none => exact jsGt_none_right _
          | some z =>
            rw [ca, cr] at hacc
            have hxz : x ≤ z := by
              by_contra hlt
              simp [jsGt] at hacc; omega
            rw [hy]; simp [jsGt]; omega
      · have hstep : favStep C a0 j = j := by
          simp only [favStep, ite_eq_right_iff]
          intro hc; exact absurd hc h
        rw [hstep]
        exact favStep_foldl_acc C ks j (fun i hi => hks i (List.mem_cons_of_mem _ hi))
    · exact ih (favStep C a0 k) (fun i hi => hks i (List.mem_cons_of_mem _ hi)) j hjks

/-- The reduce picks, among keys achieving the maximum, the last one: the
result either is the untouched accumulator that strictly beats every key,
or it occurs in the key list and strictly beats every key after it. -/
theorem favStep_foldl_last (C : List (String × Nat)) (ks : List String) (a0 : String) :
    (ks.foldl (favStep C) a0 = a0 ∧
      ∀ k ∈ ks, jsGt (assocLookup a0 C) (assocLookup k C) = true) ∨
    (∃ L R, ks = L ++ ks.foldl (favStep C) a0 :: R ∧
      ∀ j ∈ R, jsGt (assocLookup (ks.foldl (favStep C) a0) C) (assocLookup j C) = true) := by
  induction ks generalizing a0 with
  | nil => exact Or.inl ⟨rfl, fun k hk => absurd hk (List.not_mem_nil k)⟩
  | cons k ks ih =>
    rw [List.foldl_cons]
    by_cases h : jsGt (assocLookup a0 C) (assocLookup k C) = true
    · have hstep : favStep C a0 k = a0 := by simp [favStep, h]
      rw [hstep]
      rcases ih a0 with ⟨hr, hall⟩ | ⟨L, R, hsplit, hdom⟩
      · refine Or.inl ⟨hr, fun j hj => ?_⟩
        rcases List.mem_cons.mp hj with hjk | hjks
        · subst hjk; exact h
        · exact hall j hjks
      · exact Or.inr ⟨k :: L, R, by rw [List.cons_append, ← hsplit], hdom⟩
    · have hstep : favStep C a0 k = k := by
        simp only [favStep, ite_eq_right_iff]
        intro hc; exact absurd hc h
      rw [hstep]
      rcases ih k with ⟨hr, hall⟩ | ⟨L, R, hsplit, hdom⟩
      · exact Or.inr ⟨[], ks, by rw [List.nil_append, hr], by rw [hr]; exact hall⟩
      · exact Or.inr ⟨k :: L, R, by rw [List.cons_append, ← hsplit], hdom⟩

theorem idxS_lt_length {s : String} {ss : List String} (h : s ∈ ss) :
    idxS s ss < ss.length := by
  induction ss with
  | nil => cases h
  | cons t ts ih =>
    by_cases hts : t = s
    · simp [idxS, hts]
    · rcases List.mem_cons.mp h with he | hm
      · exact absurd he.symm hts
      · simp only [idxS, if_neg hts, List.length_cons]
        exact Nat.succ_lt_succ (ih hm)

theorem idxS_append_left {s : String} {ss : List String} (ws : List String) (h : s ∈ ss) :
    idxS s (ss ++ ws) = idxS s ss := by
  induction ss with
  | nil => cases h
  | cons t ts ih =>
    by_cases hts : t = s
    · simp [idxS, hts]
    · rcases List.mem_cons.mp h with he | hm
      · exact absurd he.symm hts
      · simp only [List.cons_append, idxS, if_neg hts, List.append_eq, ih hm]

theorem idxS_append_self {s : String} {ss : List String} (h : s ∉ ss) :
    idxS s (ss ++ [s]) = ss.length := by
  induction ss with
  | nil => simp [idxS]
  | cons t ts ih =>
    have hts : ¬ t = s := fun e => h (by simp [e])
    simp only [List.cons_append, idxS, if_neg hts, List.length_cons, List.append_eq]
    rw [ih (fun hm => h (List.mem_cons_of_mem _ hm))]

theorem fIdx_eq_idxS (s : String) (vs : List VisitRow) :
    fIdx s vs = idxS s (storeIds vs) := by
  induction vs with
  | nil => rfl
  | cons v vs ih => simp [fIdx, idxS, storeIds, ih]

/-- The value reported by `mostRecent` is the check-in time of an actual
visit to that store. -/
theorem mostRecent_mem {s : String} {vs : List VisitRow} (h : s ∈ storeIds vs) :
    ∃ v ∈ vs, v.store_id = s ∧ v.check_in_at = mostRecent s vs := by
  induction vs with
  | nil => cases h
  | cons v vs ih =>
    by_cases hv : v.store_id = s
    · exact ⟨v, List.mem_cons_self _ _, hv, by simp [mostRecent, hv]⟩
    · rcases List.mem_cons.mp h with he | hm
      · exact absurd he.symm hv
      · obtain ⟨u, hu, hus, hut⟩ := ih hm
        exact ⟨u, List.mem_cons_of_mem _ hu, hus, by simp [mostRecent, hv, hut]⟩

/-- On a descending history, `mostRecent` dominates the check-in time of
every visit to that store: the first occurrence is indeed the most
recent one. -/
theorem mostRecent_ge {s : String} {vs : List VisitRow} (hsort : SortedDesc vs) :
    ∀ v ∈ vs, v.store_id = s → v.check_in_at ≤ mostRecent s vs := by
  induction vs with
  | nil => intro v hv; cases hv
  | cons w vs ih =>
    rw [SortedDesc, List.pairwise_cons] at hsort
    intro v hv hvs
    rcases List.mem_cons.mp hv with he | hm
    · subst he
      by_cases hw : v.store_id = s
      · simp [mostRecent, hw]
      · exact absurd hvs hw
    · by_cases hw : w.store_id = s
      · simp only [mostRecent, if_pos hw]
        exact Nat.le_of_lt (hsort.1 v hm)
      · simp only [mostRecent, if_neg hw]
        exact ih hsort.2 v hm hvs

/-- On a strictly descending history, a store whose first visit occurs
earlier in the list has a strictly more recent latest check-in. -/
theorem mostRecent_lt_of_fIdx_lt {s1 s2 : String} {vs : List VisitRow}
    (hsort : SortedDesc vs) (h1 : s1 ∈ storeIds vs) (h2 : s2 ∈ storeIds vs)
    (hlt : fIdx s1 vs < fIdx s2 vs) :
    mostRecent s2 vs < mostRecent s1 vs := by
  induction vs with
  | nil => cases h1
  | cons v vs ih =>
    rw [SortedDesc, List.pairwise_cons] at hsort
    by_cases hv1 : v.store_id = s1
    · by_cases hv2 : v.store_id = s2
      · rw [fIdx, if_pos hv1, fIdx, if_pos hv2] at hlt
        cases hlt
      · simp only [mostRecent, if_pos hv1, if_neg hv2]
        have hm2 : s2 ∈ storeIds vs := by
          rcases List.mem_cons.mp h2 with he | hm
          · exact absurd he.symm hv2
          · exact hm
        obtain ⟨u, hu, _, hut⟩ := mostRecent_mem hm2
        rw [← hut]
        exact hsort.1 u hu
    · by_cases hv2 : v.store_id = s2
      · rw [fIdx, if_neg hv1, fIdx, if_pos hv2] at hlt
        cases hlt
      · rw [fIdx, if_neg hv1, fIdx, if_neg hv2] at hlt
        simp only [mostRecent, if_neg hv1, if_neg hv2]
        have hm1 : s1 ∈ storeIds vs := by
          rcases List.mem_cons.mp h1 with he | hm
          · exact absurd he.symm hv1
          · exact hm
        have hm2 : s2 ∈ storeIds vs := by
          rcases List.mem_cons.mp h2 with he | hm
          · exact absurd he.symm hv2
          · exact hm
        exact ih hsort.2 hm1 hm2 (Nat.lt_of_succ_lt_succ hlt)

/-- The keys of a counter object are ordered by first occurrence of the
counted string. -/
theorem keysOf_countStr_pairwise (ss : List String) :
    List.Pairwise (fun a b => idxS a ss < idxS b ss) (keysOf (countStr ss)) := by
  induction ss using List.reverseRecOn with
  | nil => simp [countStr, keysOf]
  | append_singleton ss t ih =>
    have hfold : countStr (ss ++ [t]) = insertCount (countStr ss) t := by
      simp [countStr, List.foldl_append]
    rw [hfold, keysOf_insertCount]
    by_cases hmem : t ∈ keysOf (countStr ss)
    · rw [if_pos hmem]
      refine List.Pairwise.imp_of_mem ?_ ih
      intro a b ha hb hab
      have has : a ∈ ss := (mem_keysOf_countStr ss a).mp ha
      have hbs : b ∈ ss := (mem_keysOf_countStr ss b).mp hb
      rw [idxS_append_left [t] has, idxS_append_left [t] hbs]
      exact hab
    · rw [if_neg hmem]
      rw [List.pairwise_append]
      refine ⟨?_, List.pairwise_singleton _ _, ?_⟩
      · refine List.Pairwise.imp_of_mem ?_ ih
        intro a b ha hb hab
        have has : a ∈ ss := (mem_keysOf_countStr ss a).mp ha
        have hbs : b ∈ ss := (mem_keysOf_countStr ss b).mp hb
        rw [idxS_append_left [t] has, idxS_append_left [t] hbs]
        exact hab
      · intro a ha b hb
        rw [List.mem_singleton] at hb
        subst hb
        have has : a ∈ ss := (mem_keysOf_countStr ss a).mp ha
        have hts : b ∉ ss := fun hc => hmem ((mem_keysOf_countStr ss b).mpr hc)
        rw [idxS_append_left [b] has, idxS_append_self hts]
        exact idxS_lt_length has

theorem favoriteStoreId_eq (vs : List VisitRow) :
    favoriteStoreId vs =
      (keysOf (countStr (storeIds vs))).foldl (favStep (countStr (storeIds vs))) "" := rfl

/-- C1 (amended): on a non-empty visit history ordered by `check_in_at`
strictly descending, `favoriteStoreId` (the store whose name
`getVisitStatsForUser` reports as `stats.favoriteStore`) is a store of the
history with maximal visit count, and among tied leaders it is the one
whose most recent `check_in_at` is the EARLIEST — not the latest: the
`reduce` over `Object.keys(storeCounts)` with a strict `>` keeps the
later key on ties, and later keys are stores whose most recent visit is
older. -/
theorem favoriteStore_tiebreak_earliest (vs : List VisitRow) (hne : vs ≠ [])
    (hsort : SortedDesc vs) :
    favoriteStoreId vs ∈ storeIds vs ∧
    (∀ s ∈ storeIds vs, countStore s vs ≤ countStore (favoriteStoreId vs) vs) ∧
    (∀ l ∈ storeIds vs, countStore l vs = countStore (favoriteStoreId vs) vs →
      l ≠ favoriteStoreId vs →
      mostRecent (favoriteStoreId vs) vs < mostRecent l vs) := by
  have hmemkeys : ∀ k, k ∈ keysOf (countStr (storeIds vs)) ↔ k ∈ storeIds vs :=
    mem_keysOf_countStr (storeIds vs)
  have hsome : ∀ k ∈ keysOf (countStr (storeIds vs)),
      (assocLookup k (countStr (storeIds vs))).isSome = true := by
    intro k hk
    rw [assocLookup_countStr, if_pos ((hmemkeys k).mp hk)]
    rfl
  have hlookup : ∀ s ∈ storeIds vs,
      assocLookup s (countStr (storeIds vs)) = some ((storeIds vs).count s) := by
    intro s hs
    rw [assocLookup_countStr, if_pos hs]
  have hssne : storeIds vs ≠ [] := by
    intro hc
    exact hne (List.map_eq_nil_iff.mp hc)
  obtain ⟨k0, hk0⟩ := List.exists_mem_of_ne_nil _ hssne
  have hk0keys := (hmemkeys k0).mpr hk0
  rcases favStep_foldl_last (countStr (storeIds vs)) (keysOf (countStr (storeIds vs))) ""
    with ⟨hr, hall⟩ | ⟨L, R, hsplit, hdom⟩
  · exfalso
    by_cases hmem0 : "" ∈ keysOf (countStr (storeIds vs))
    · have hc := hall "" hmem0
      rw [jsGt_irrefl] at hc
      exact Bool.false_ne_true hc
    · have h0 : assocLookup "" (countStr (storeIds vs)) = none := by
        rw [assocLookup_countStr, if_neg (fun hc => hmem0 ((hmemkeys _).mpr hc))]
      have hc := hall k0 hk0keys
      rw [h0, jsGt_none_left] at hc
      exact Bool.false_ne_true hc
  · rw [favoriteStoreId_eq]
    have hrkeys : (keysOf (countStr (storeIds vs))).foldl
        (favStep (countStr (storeIds vs))) "" ∈ keysOf (countStr (storeIds vs)) := by
      have hm : (keysOf (countStr (storeIds vs))).foldl (favStep (countStr (storeIds vs))) ""
          ∈ L ++ (keysOf (countStr (storeIds vs))).foldl (favStep (countStr (storeIds vs))) "" :: R :=
        List.mem_append_right _ (List.mem_cons_self _ _)
      rw [← hsplit] at hm
      exact hm
    have hrss := (hmemkeys _).mp hrkeys
    refine ⟨hrss, ?_, ?_⟩
    · intro s hs
      have hmax := favStep_foldl_max (countStr (storeIds vs)) _ "" hsome s
        ((hmemkeys s).mpr hs)
      rw [hlookup s hs, hlookup _ hrss] at hmax
      simp only [jsGt, decide_eq_false_iff_not, Nat.not_lt] at hmax
      exact hmax
    · intro l hl heq hne2
      have hlkeys := (hmemkeys l).mpr hl
      rw [hsplit] at hlkeys
      rcases List.mem_append.mp hlkeys with hlL | hlrR
      · have hpw := keysOf_countStr_pairwise (storeIds vs)
        rw [hsplit, List.pairwise_append] at hpw
        have hidx := hpw.2.2 l hlL _ (List.mem_cons_self _ _)
        have hfidx : fIdx l vs <
            fIdx ((keysOf (countStr (storeIds vs))).foldl
              (favStep (countStr (storeIds vs))) "") vs := by
          rw [fIdx_eq_idxS, fIdx_eq_idxS]
          exact hidx
        exact mostRecent_lt_of_fIdx_lt hsort hl hrss hfidx
      · rcases List.mem_cons.mp hlrR with hlr | hlR
        · exact absurd hlr hne2
        · exfalso
          have hd := hdom l hlR
          rw [hlookup _ hrss, hlookup l hl] at hd
          simp only [jsGt, decide_eq_true_eq] at hd
          simp only [countStore] at heq
          omega

/-- C1 counterexample: in `c1visits` the stores "s1" and "s2" are tied
leaders, "s2" has the latest `check_in_at`, yet `favoriteStoreId`
selects "s1" — refuting the claimed most-recent tie-break. -/
theorem favoriteStore_tiebreak_counterexample :
    countStore "s1" c1visits = countStore "s2" c1visits ∧
    mostRecent "s1" c1visits < mostRecent "s2" c1visits ∧
    favoriteStoreId c1visits = "s1" ∧ favoriteStoreId c1visits ≠ "s2" := by
  decide

/-- Witness for `favoriteStore_tiebreak_earliest` at the concrete
history `c1visits`. -/
theorem favoriteStore_tiebreak_earliest_witness :
    favoriteStoreId c1visits ∈ storeIds c1visits ∧
    (∀ s ∈ storeIds c1visits,
      countStore s c1visits ≤ countStore (favoriteStoreId c1visits) c1visits) ∧
    (∀ l ∈ storeIds c1visits,
      countStore l c1visits = countStore (favoriteStoreId c1visits) c1visits →
      l ≠ favoriteStoreId c1visits →
      mostRecent (favoriteStoreId c1visits) c1visits < mostRecent l c1visits) :=
  favoriteStore_tiebreak_earliest c1visits (by decide) (by decide)

/- ### Chart aggregation as frequency maps -/

theorem chartOf_eq_countStr (f : VisitRow → Option (List String)) (vs : List VisitRow) :
    chartOf f vs = countStr (flatLabels f vs) := by
  suffices h : ∀ (ws : List VisitRow) (acc : List (String × Nat)),
      ws.foldl
        (fun acc v =>
          match f v with
          | some arr => arr.foldl insertCount acc
          | none => acc) acc = (flatLabels f ws).foldl insertCount acc by
    exact h vs []
  intro ws
  induction ws with
  | nil => intro acc; rfl
  | cons v ws ih =>
    intro acc
    rw [List.foldl_cons, ih]
    have hstep :
        (match f v with
          | some arr => arr.foldl insertCount acc
          | none => acc) = ((f v).getD []).foldl insertCount acc := by
      cases f v <;> rfl
    rw [hstep]
    simp only [flatLabels]
    rw [List.flatMap_cons, List.foldl_append]

theorem chartPurpose_eq_countStr (vs : List VisitRow) :
    chartPurpose vs = countStr (purposeLabels vs) := by
  suffices h : ∀ (ws : List VisitRow) (acc : List (String × Nat)),
      ws.foldl
        (fun acc v =>
          match v.visit_purpose with
          | some p => if p = "" then acc else insertCount acc p
          | none => acc) acc = (purposeLabels ws).foldl insertCount acc by
    exact h vs []
  intro ws
  induction ws with
  | nil => intro acc; rfl
  | cons v ws ih =>
    intro acc
    rw [List.foldl_cons, ih]
    cases hp : v.visit_purpose with
    | none => simp [purposeLabels, List.filterMap_cons, hp]
    | some p =>
      by_cases hpe : p = ""
      · simp [purposeLabels, List.filterMap_cons, hp, hpe]
      · simp [purposeLabels, List.filterMap_cons, hp, hpe]

theorem chartCount_countStr (l : String) (ss : List String) :
    chartCount l (countStr ss) = ss.count l := by
  rw [chartCount, assocLookup_countStr]
  by_cases hmem : l ∈ ss
  · simp [hmem]
  · simp [hmem, List.count_eq_zero.mpr hmem]

/-- C7: every chart of `getVisitAnalyticsForUser` is the frequency map of
its underlying label multiset: companion charts count occurrences over
the flattened companion arrays (null arrays as empty), the purpose chart
counts only non-empty `visit_purpose` values, and every label occurring
in some visit's companion_industries has count at least 1. -/
theorem analytics_charts_frequency (vs : List VisitRow) (label : String) :
    chartCount label (getVisitAnalyticsForUser vs).companionIndustry =
      (flatLabels (·.companion_industries) vs).count label ∧
    chartCount label (getVisitAnalyticsForUser vs).companionJobType =
      (flatLabels (·.companion_job_types) vs).count label ∧
    chartCount label (getVisitAnalyticsForUser vs).visitPurpose =
      (purposeLabels vs).count label ∧
    (label ∈ flatLabels (·.companion_industries) vs →
      1 ≤ chartCount label (getVisitAnalyticsForUser vs).companionIndustry) := by
  refine ⟨?_, ?_, ?_, ?_⟩
  · show chartCount label (chartOf (·.companion_industries) vs) = _
    rw [chartOf_eq_countStr, chartCount_countStr]
  · show chartCount label (chartOf (·.companion_job_types) vs) = _
    rw [chartOf_eq_countStr, chartCount_countStr]
  · show chartCount label (chartPurpose vs) = _
    rw [chartPurpose_eq_countStr, chartCount_countStr]
  · intro hmem
    show 1 ≤ chartCount label (chartOf (·.companion_industries) vs)
    rw [chartOf_eq_countStr, chartCount_countStr]
    exact List.count_pos_iff.mpr hmem

/-- Witness for `analytics_charts_frequency` at Scenario C: "IT" is
counted twice, and being present it has count at least 1. -/
theorem analytics_charts_frequency_witness :
    chartCount "IT" (getVisitAnalyticsForUser c7visits).companionIndustry =
      (flatLabels (·.companion_industries) c7visits).count "IT" ∧
    1 ≤ chartCount "IT" (getVisitAnalyticsForUser c7visits).companionIndustry :=
  ⟨(analytics_charts_frequency c7visits "IT").1,
   (analytics_charts_frequency c7visits "IT").2.2.2 (by decide)⟩

/- ### Recent visits -/

/-- C8 (amended): `stats.recentVisits` consists of the FIRST FIVE rows of
the `check_in_at`-descending history — `visitsData.slice(0, 5)` — not
two: its length is `min 5 n`, its entries are the five most recent
visits as (date, storeName) pairs, and every visit left out is strictly
older than every visit included. -/
theorem recentVisits_top_five (vs : List VisitRow) (hsort : SortedDesc vs) :
    (getVisitStatsForUser vs).recentVisits =
      (vs.take 5).map (fun v => (v.check_in_at, jsOrStr v.store_name "Unknown Store")) ∧
    (getVisitStatsForUser vs).recentVisits.length = min 5 vs.length ∧
    ∀ v ∈ vs.drop 5, ∀ w ∈ vs.take 5, v.check_in_at < w.check_in_at := by
  refine ⟨rfl, ?_, ?_⟩
  · show (recentVisits vs).length = _
    rw [recentVisits, List.length_map, List.length_take]
  · intro v hv w hw
    have h2 : List.Pairwise (fun u w => w.check_in_at < u.check_in_at)
        (vs.take 5 ++ vs.drop 5) := by
      rw [List.take_append_drop]
      exact hsort
    rw [List.pairwise_append] at h2
    exact h2.2.2 w hw v hv

/-- C8 counterexample: a user with three visits (hence at least two) gets
THREE entries in `stats.recentVisits`, not the claimed exactly two. -/
theorem recentVisits_counterexample :
    2 ≤ c8visits.length ∧
    (getVisitStatsForUser c8visits).recentVisits.length = 3 ∧
    (getVisitStatsForUser c8visits).recentVisits.length ≠ 2 := by
  decide

/-- Witness for `recentVisits_top_five` at the concrete history
`c8visits`. -/
theorem recentVisits_top_five_witness :
    (getVisitStatsForUser c8visits).recentVisits =
      (c8visits.take 5).map (fun v => (v.check_in_at, jsOrStr v.store_name "Unknown Store")) ∧
    (getVisitStatsForUser c8visits).recentVisits.length = min 5 c8visits.length ∧
    ∀ v ∈ c8visits.drop 5, ∀ w ∈ c8visits.take 5, v.check_in_at < w.check_in_at :=
  recentVisits_top_five c8visits (by decide)

/-- C10: for a linked user with zero visits `getMembershipCardData`
still succeeds: totalVisits 0, favoriteStore "N/A" (the reduce over an
empty keys object returns its '' initial value and the follow-up find
misses), recentVisits empty, and all three chart maps empty. -/
theorem membership_card_zero_visits (users : List UserRec) (lid : String) (u : UserRec)
    (hu : getUserByLineId users lid = some u) :
    getMembershipCardData users lid [] =
      some { profileName := "ユーザー"
             stats := { totalVisits := 0, favoriteStore := "N/A", recentVisits := [] }
             charts := { companionIndustry := [], companionJobType := [], visitPurpose := [] } } := by
  rw [getMembershipCardData, hu]
  rfl

/-- Witness for `membership_card_zero_visits` at the concrete store
`c10users`. -/
theorem membership_card_zero_visits_witness :
    getMembershipCardData c10users "L1" [] =
      some { profileName := "ユーザー"
             stats := { totalVisits := 0, favoriteStore := "N/A", recentVisits := [] }
             charts := { companionIndustry := [], companionJobType := [], visitPurpose := [] } } :=
  membership_card_zero_visits c10users "L1"
    { id := 1, email := "a@x.com", line_user_id := some "L1" } (by decide)

/- ### Per-call behavior of register -/

/-- The post-state of one register call takes one of three shapes: the
input store unchanged (any failure up to and including the payment
step), the store with only the new payment customer (users insert
failed — the customer is orphaned), or the store with both the customer
and the new user row. -/
theorem register_snd_shape (nowYear : Nat) (c : RegCall) (s : DB) :
    (register nowYear c s).2 = s ∨
    (register nowYear c s).2 =
      { s with customers := s.customers ++ [(s.nextId, c.surveyData.email)]
               nextId := s.nextId + 1 } ∨
    (register nowYear c s).2 =
      { s with customers := s.customers ++ [(s.nextId, c.surveyData.email)]
               users := s.users ++ [{ id := s.nextId + 1, email := c.surveyData.email
                                      line_user_id := none
                                      stripe_customer_id := some s.nextId }]
               nextId := s.nextId + 2 } := by
  obtain ⟨env, tok, d⟩ := c
  cases tok with
  | missing => exact Or.inl rfl
  | garbled =>
    simp only [register]
    by_cases hval : validateRegistrationData nowYear d = true
    · rw [if_pos hval]
      cases hfind : getUserByEmail s.users d.email with
      | some u => exact Or.inl rfl
      | none => exact Or.inl rfl
    · rw [if_neg hval]
      exact Or.inl rfl
  | payload sub uname exp =>
    simp only [register]
    by_cases hval : validateRegistrationData nowYear d = true
    · rw [if_pos hval]
      cases hfind : getUserByEmail s.users d.email with
      | some u => exact Or.inl rfl
      | none =>
        simp only [parseLineIdToken]
        by_cases hst : env.stripeFails = true
        · rw [if_pos hst]
          exact Or.inl rfl
        · rw [if_neg hst]
          by_cases hui : env.userInsertFails = true
          · rw [if_pos hui]
            exact Or.inr (Or.inl rfl)
          · rw [if_neg hui]
            by_cases hps : env.profileSurveyFails = true
            · rw [if_pos hps]
              exact Or.inr (Or.inr rfl)
            · rw [if_neg hps]
              exact Or.inr (Or.inr rfl)
    · rw [if_neg hval]
      exact Or.inl rfl

/-- When a user with the call's email already exists, register leaves
the store untouched and — whenever the request passes the presence and
validation gates — fails with ConflictError, before the payment step. -/
theorem register_conflict (nowYear : Nat) (c : RegCall) (s : DB) (u : UserRec)
    (huser : getUserByEmail s.users c.surveyData.email = some u) :
    (register nowYear c s).2 = s ∧
    (c.idToken ≠ .missing → validateRegistrationData nowYear c.surveyData = true →
      (register nowYear c s).1 = .error .conflict) := by
  obtain ⟨env, tok, d⟩ := c
  cases tok with
  | missing => exact ⟨rfl, fun hne _ => absurd rfl hne⟩
  | garbled =>
    simp only [register]
    by_cases hval : validateRegistrationData nowYear d = true
    · rw [if_pos hval, huser]
      exact ⟨rfl, fun _ _ => rfl⟩
    · rw [if_neg hval]
      exact ⟨rfl, fun _ hv => absurd hv hval⟩
  | payload sub uname exp =>
    simp only [register]
    by_cases hval : validateRegistrationData nowYear d = true
    · rw [if_pos hval, huser]
      exact ⟨rfl, fun _ _ => rfl⟩
    · rw [if_neg hval]
      exact ⟨rfl, fun _ hv => absurd hv hval⟩

/-- A successful register call implies the email gate found no existing
user, and its post-state persists exactly the new payment customer and
the new user row; the returned value is the customer id. -/
theorem register_success (nowYear : Nat) (c : RegCall) (s : DB) (k : Nat)
    (h : (register nowYear c s).1 = .ok k) :
    getUserByEmail s.users c.surveyData.email = none ∧
    k = s.nextId ∧
    (register nowYear c s).2 =
      { s with customers := s.customers ++ [(s.nextId, c.surveyData.email)]
               users := s.users ++ [{ id := s.nextId + 1, email := c.surveyData.email
                                      line_user_id := none
                                      stripe_customer_id := some s.nextId }]
               nextId := s.nextId + 2 } := by
  obtain ⟨env, tok, d⟩ := c
  cases tok with
  | missing => simp [register] at h
  | garbled =>
    simp only [register] at h ⊢
    by_cases hval : validateRegistrationData nowYear d = true
    · rw [if_pos hval] at h
      cases hfind : getUserByEmail s.users d.email with
      | some u => rw [hfind] at h; simp at h
      | none => rw [hfind] at h; simp [parseLineIdToken] at h
    · rw [if_neg hval] at h
      simp at h
  | payload sub uname exp =>
    simp only [register] at h ⊢
    by_cases hval : validateRegistrationData nowYear d = true
    · rw [if_pos hval] at h ⊢
      cases hfind : getUserByEmail s.users d.email with
      | some u => rw [hfind] at h; simp at h
      | none =>
        rw [hfind] at h
        simp only [parseLineIdToken] at h ⊢
        by_cases hst : env.stripeFails = true
        · rw [if_pos hst] at h; simp at h
        · rw [if_neg hst] at h ⊢
          by_cases hui : env.userInsertFails = true
          · rw [if_pos hui] at h; simp at h
          · rw [if_neg hui] at h ⊢
            by_cases hps : env.profileSurveyFails = true
            · rw [if_pos hps] at h; simp at h
            · rw [if_neg hps] at h ⊢
              simp only [Except.ok.injEq] at h
              exact ⟨trivial, h.symm, rfl⟩
    · rw [if_neg hval] at h
      simp at h

theorem find_isSome_append {α : Type} (p : α → Bool) (l l2 : List α)
    (h : (l.find? p).isSome = true) : ((l ++ l2).find? p).isSome = true := by
  rw [List.find?_append]
  cases hf : l.find? p with
  | none => rw [hf] at h; cases h
  | some x => simp [Option.or]

theorem find_isSome_append_single {α : Type} (p : α → Bool) (l : List α) (u : α)
    (hp : p u = true) : ((l ++ [u]).find? p).isSome = true := by
  rw [List.find?_append]
  cases hf : l.find? p with
  | none => simp [Option.or, List.find?, hp]
  | some x => simp [Option.or]

/-- A register call whose email differs from `E` does not change the
number of payment customers with email `E`. -/
theorem register_customers_other (nowYear : Nat) (E : String) (c : RegCall) (s : DB)
    (hE : c.surveyData.email ≠ E) :
    customersWith E (register nowYear c s).2 = customersWith E s := by
  rcases register_snd_shape nowYear c s with h | h | h <;>
    rw [h] <;> simp [customersWith, List.countP_append, List.countP_cons, hE]

/-- Once a user with email `E` is persisted and exactly one customer
with email `E` exists, any further register call preserves both. -/
theorem register_inv_step (nowYear : Nat) (E : String) (c : RegCall) (s : DB)
    (hu : userWith E s = true) (hc : customersWith E s = 1) :
    userWith E (register nowYear c s).2 = true ∧
    customersWith E (register nowYear c s).2 = 1 := by
  by_cases hE : c.surveyData.email = E
  · obtain ⟨u, hfu⟩ : ∃ u, getUserByEmail s.users E = some u := by
      rw [userWith] at hu
      cases hf : getUserByEmail s.users E with
      | none => rw [hf] at hu; cases hu
      | some u => exact ⟨u, rfl⟩
    have hpres := (register_conflict nowYear c s u (by rw [hE]; exact hfu)).1
    rw [hpres]
    exact ⟨hu, hc⟩
  · rcases register_snd_shape nowYear c s with h | h | h
    · rw [h]; exact ⟨hu, hc⟩
    · rw [h]
      refine ⟨hu, ?_⟩
      simpa [customersWith, List.countP_append, List.countP_cons, hE] using hc
    · rw [h]
      constructor
      · rw [userWith, getUserByEmail] at hu ⊢
        exact find_isSome_append _ _ _ hu
      · simpa [customersWith, List.countP_append, List.countP_cons, hE] using hc

theorem regTrace_cons (nowYear : Nat) (c : RegCall) (cs : List RegCall) (s : DB) :
    regTrace nowYear (c :: cs) s = regTrace nowYear cs (register nowYear c s).2 := rfl

theorem regTrace_inv (nowYear : Nat) (E : String) (cs : List RegCall) (s : DB)
    (hu : userWith E s = true) (hc : customersWith E s = 1) :
    userWith E (regTrace nowYear cs s) = true ∧
    customersWith E (regTrace nowYear cs s) = 1 := by
  induction cs generalizing s with
  | nil => exact ⟨hu, hc⟩
  | cons c cs ih =>
    rw [regTrace_cons]
    obtain ⟨hu2, hc2⟩ := register_inv_step nowYear E c s hu hc
    exact ih _ hu2 hc2

theorem regTrace_customers_zero (nowYear : Nat) (E : String) (cs : List RegCall) (s : DB)
    (hpre : ∀ p ∈ cs, p.surveyData.email ≠ E) (h0 : customersWith E s = 0) :
    customersWith E (regTrace nowYear cs s) = 0 := by
  induction cs generalizing s with
  | nil => exact h0
  | cons c cs ih =>
    rw [regTrace_cons]
    refine ih _ (fun p hp => hpre p (List.mem_cons_of_mem _ hp)) ?_
    rw [register_customers_other nowYear E c s (hpre c (List.mem_cons_self _ _))]
    exact h0

/-- C3: idempotent email gate.  If the first register call carrying
email `E` succeeds (no earlier call used `E`, no customer with `E`
existed), then ever after: exactly one payment customer with email `E`
exists no matter what register calls follow, and every later register
call with email `E` leaves the store untouched and — whenever it passes
the presence and validation gates — fails with ConflictError, because
the email-conflict lookup precedes payment-customer creation and all
persistence. -/
theorem register_email_idempotent_gate (nowYear : Nat) (E : String) (pre : List RegCall)
    (c : RegCall) (post : List RegCall) (s0 : DB) (k : Nat)
    (hpre : ∀ p ∈ pre, p.surveyData.email ≠ E)
    (hcE : c.surveyData.email = E)
    (h0 : customersWith E s0 = 0)
    (hsucc : (register nowYear c (regTrace nowYear pre s0)).1 = .ok k) :
    customersWith E (regTrace nowYear post (register nowYear c (regTrace nowYear pre s0)).2) = 1 ∧
    ∀ post1 d post2, post = post1 ++ d :: post2 → d.surveyData.email = E →
      (register nowYear d
          (regTrace nowYear post1 (register nowYear c (regTrace nowYear pre s0)).2)).2 =
        regTrace nowYear post1 (register nowYear c (regTrace nowYear pre s0)).2 ∧
      (d.idToken ≠ .missing → validateRegistrationData nowYear d.surveyData = true →
        (register nowYear d
            (regTrace nowYear post1 (register nowYear c (regTrace nowYear pre s0)).2)).1 =
          .error .conflict) := by
  have hcust_pre : customersWith E (regTrace nowYear pre s0) = 0 :=
    regTrace_customers_zero nowYear E pre s0 hpre h0
  obtain ⟨hfind, hk, hshape⟩ := register_success nowYear c (regTrace nowYear pre s0) k hsucc
  have hcust_c : customersWith E (register nowYear c (regTrace nowYear pre s0)).2 = 1 := by
    rw [hshape]
    simpa [customersWith, List.countP_append, List.countP_cons, hcE] using hcust_pre
  have huser_c : userWith E (register nowYear c (regTrace nowYear pre s0)).2 = true := by
    rw [hshape, userWith, getUserByEmail]
    exact find_isSome_append_single _ _ _ (by simp [hcE])
  refine ⟨(regTrace_inv nowYear E post _ huser_c hcust_c).2, ?_⟩
  intro post1 d post2 hsplit hdE
  obtain ⟨hu1, hc1⟩ := regTrace_inv nowYear E post1 _ huser_c hcust_c
  obtain ⟨u, hfu⟩ : ∃ u, getUserByEmail
      (regTrace nowYear post1 (register nowYear c (regTrace nowYear pre s0)).2).users E
      = some u := by
    rw [userWith] at hu1
    cases hf : getUserByEmail
        (regTrace nowYear post1 (register nowYear c (regTrace nowYear pre s0)).2).users E with
    | none => rw [hf] at hu1; cases hu1
    | some u => exact ⟨u, rfl⟩
  exact register_conflict nowYear d _ u (by rw [hdE]; exact hfu)

/- ### Gate order of register -/

/-- C6 (amended): the actual gate order of `register` is: presence check
on the token, then SURVEY VALIDATION, then the token parse (which only
decodes — a malformed token yields null and no error of its own, and
`exp` is never checked), then the email-conflict lookup, then
payment-customer creation and persistence.  A malformed token with an
unregistered email ends in a generic internal failure (the null-profile
dereference at the Stripe call) — still before any side effect — while
with a registered email it ends in ConflictError; a well-formed token is
accepted whatever its expiry. -/
theorem register_gate_order (nowYear : Nat) (c : RegCall) (s : DB) :
    (c.idToken = .missing → register nowYear c s = (.error .validation, s)) ∧
    (c.idToken ≠ .missing → validateRegistrationData nowYear c.surveyData = false →
      register nowYear c s = (.error .validation, s)) ∧
    (∀ u, validateRegistrationData nowYear c.surveyData = true → c.idToken ≠ .missing →
      getUserByEmail s.users c.surveyData.email = some u →
      register nowYear c s = (.error .conflict, s)) ∧
    (validateRegistrationData nowYear c.surveyData = true →
      getUserByEmail s.users c.surveyData.email = none → c.idToken = .garbled →
      register nowYear c s = (.error .internal, s)) ∧
    (∀ sub uname exp, c.idToken = .payload sub uname exp →
      validateRegistrationData nowYear c.surveyData = true →
      getUserByEmail s.users c.surveyData.email = none →
      c.env = {} →
      (register nowYear c s).1 = .ok s.nextId) := by
  obtain ⟨env, tok, d⟩ := c
  refine ⟨?_, ?_, ?_, ?_, ?_⟩
  · intro htok
    cases htok
    rfl
  · intro htok hval
    cases tok with
    | missing => exact absurd rfl htok
    | garbled => simp [register, hval]
    | payload sub uname exp => simp [register, hval]
  · intro u hval htok hfind
    cases tok with
    | missing => exact absurd rfl htok
    | garbled => simp [register, hval, hfind]
    | payload sub uname exp => simp [register, hval, hfind]
  · intro hval hfind htok
    cases htok
    simp [register, hval, hfind, parseLineIdToken]
  · intro sub uname exp htok hval hfind henv
    cases htok
    cases henv
    simp [register, hval, hfind, parseLineIdToken]

/-- C6 counterexample: with an invalid identity token (and an invalid
payload) `register` fails with ValidationError, not AuthError — survey
validation runs before any identity verification, and no branch of
`register` ever produces an AuthError. -/
theorem register_gate_order_counterexample :
    (register 2026 c6badcall {}).1 = .error .validation ∧
    (register 2026 c6badcall {}).1 ≠ .error .auth := by
  decide

/-- Witness for `register_gate_order`, one concrete instance per gate:
missing token; invalid survey with a garbled token; registered email
conflict (garbled token); unregistered email with garbled token;
successful registration with an expired-but-decodable token. -/
theorem register_gate_order_witness :
    register 2026 { idToken := .missing, surveyData := c3survey } c6db =
      (.error .validation, c6db) ∧
    register 2026 c6badcall c6db = (.error .validation, c6db) ∧
    register 2026 { idToken := .garbled, surveyData := c3survey } c6db =
      (.error .conflict, c6db) ∧
    register 2026 { idToken := .garbled, surveyData := c3survey } {} =
      (.error .internal, ({} : DB)) ∧
    (register 2026 c3call {}).1 = .ok (0 : Nat) :=
  ⟨(register_gate_order 2026 _ c6db).1 rfl,
   (register_gate_order 2026 c6badcall c6db).2.1 (by decide) (by decide),
   (register_gate_order 2026 _ c6db).2.2.1 { id := 1, email := "a@x.com" }
     (by decide) (by decide) (by decide),
   (register_gate_order 2026 _ {}).2.2.2.1 (by decide) (by decide) rfl,
   (register_gate_order 2026 c3call {}).2.2.2.2 "sub1" "Taro" (some 0) rfl
     (by decide) (by decide) rfl⟩

/-- Witness for `register_email_idempotent_gate`: empty history, one
successful registration of a(at)x.com, then the same call repeated. -/
theorem register_email_idempotent_gate_witness :
    customersWith "a@x.com"
      (regTrace 2026 [c3call] (register 2026 c3call (regTrace 2026 [] {})).2) = 1 ∧
    ∀ post1 d post2, [c3call] = post1 ++ d :: post2 → d.surveyData.email = "a@x.com" →
      (register 2026 d
          (regTrace 2026 post1 (register 2026 c3call (regTrace 2026 [] {})).2)).2 =
        regTrace 2026 post1 (register 2026 c3call (regTrace 2026 [] {})).2 ∧
      (d.idToken ≠ .missing → validateRegistrationData 2026 d.surveyData = true →
        (register 2026 d
            (regTrace 2026 post1 (register 2026 c3call (regTrace 2026 [] {})).2)).1 =
          .error .conflict) :=
  register_email_idempotent_gate 2026 "a@x.com" [] c3call [c3call] {} 0
    (fun p hp => absurd hp (List.not_mem_nil p)) rfl rfl (by decide)

/- ### Check-in duplicate policy -/

/-- C2 (amended): with the user and store resolved, `checkIn` fails with
ConflictError exactly when a visit of the same user at the same store
exists within the CURRENT UTC CALENDAR DAY of `now` (from 00:00:00 to
23:59:59) — not within one hour — and otherwise appends a fresh visit
with `check_in_at = now` whose id differs from every existing visit's. -/
theorem checkIn_same_day_gate (now : Nat) (lid sid : String) (s : DB) (u : UserRec)
    (hlid : lid ≠ "") (hsid : sid ≠ "")
    (huser : getUserByLineId s.users lid = some u)
    (hstore : (s.stores.find? (fun st => decide (st.id = sid))).isSome = true)
    (hfresh : ∀ v ∈ s.visits, v.id < s.nextId) :
    (checkIn now lid sid s = .error .conflict ↔
      ∃ v ∈ s.visits, v.user_id = u.id ∧ v.store_id = sid ∧
        dayStart now ≤ v.check_in_at ∧ v.check_in_at ≤ dayStart now + 86399) ∧
    ((¬ ∃ v ∈ s.visits, v.user_id = u.id ∧ v.store_id = sid ∧
        dayStart now ≤ v.check_in_at ∧ v.check_in_at ≤ dayStart now + 86399) →
      checkIn now lid sid s =
        .ok (s.nextId,
          { s with
            visits := s.visits ++
              [{ id := s.nextId, user_id := u.id, store_id := sid, check_in_at := now }]
            nextId := s.nextId + 1 }) ∧
      ∀ v ∈ s.visits, v.id ≠ s.nextId) := by
  have hpres : ¬ (lid = "" ∨ sid = "") := by
    rintro (h | h)
    · exact hlid h
    · exact hsid h
  obtain ⟨st, hst⟩ := Option.isSome_iff_exists.mp hstore
  simp only [checkIn, if_neg hpres, huser, hst]
  cases hdup : (s.visits.filter (fun v =>
      decide (v.user_id = u.id ∧
        dayStart now ≤ v.check_in_at ∧ v.check_in_at ≤ dayStart now + 86399))).find?
      (fun v => decide (v.store_id = sid)) with
  | some w =>
    have hw : w.store_id = sid := by
      have hw1 := List.find?_some hdup
      simpa using hw1
    have hwmem := List.mem_of_find?_eq_some hdup
    rw [List.mem_filter] at hwmem
    have hwp : w.user_id = u.id ∧
        dayStart now ≤ w.check_in_at ∧ w.check_in_at ≤ dayStart now + 86399 := by
      have h2 := hwmem.2
      simpa using h2
    constructor
    · exact ⟨fun _ => ⟨w, hwmem.1, hwp.1, hw, hwp.2.1, hwp.2.2⟩, fun _ => rfl⟩
    · intro hnd
      exact absurd ⟨w, hwmem.1, hwp.1, hw, hwp.2.1, hwp.2.2⟩ hnd
  | none =>
    have hnD : ¬ ∃ v ∈ s.visits, v.user_id = u.id ∧ v.store_id = sid ∧
        dayStart now ≤ v.check_in_at ∧ v.check_in_at ≤ dayStart now + 86399 := by
      rintro ⟨v, hv, h1, h2, h3, h4⟩
      have hvf : v ∈ s.visits.filter (fun v =>
          decide (v.user_id = u.id ∧
            dayStart now ≤ v.check_in_at ∧ v.check_in_at ≤ dayStart now + 86399)) :=
        List.mem_filter.mpr ⟨hv, by simp [h1, h3, h4]⟩
      have := List.find?_eq_none.mp hdup v hvf
      simp [h2] at this
    constructor
    · exact ⟨fun h => Except.noConfusion h, fun hD => absurd hD hnD⟩
    · intro _
      exact ⟨rfl, fun v hv => Nat.ne_of_lt (hfresh v hv)⟩

/-- C2 counterexample: at 00:10 of the next UTC day (now = 87000) the
existing 23:30 visit lies within the claimed 1-hour window, so the claim
demands ConflictError; the code's same-calendar-day check lets the
check-in succeed. -/
theorem checkIn_window_counterexample :
    (∃ v ∈ c2db.visits, v.user_id = 1 ∧ v.store_id = "store1" ∧
      87000 - 3600 < v.check_in_at ∧ v.check_in_at ≤ 87000) ∧
    checkIn 87000 "L1" "store1" c2db ≠ .error .conflict ∧
    checkIn 87000 "L1" "store1" c2db =
      .ok (5, { c2db with
        visits := c2db.visits ++
          [{ id := 5, user_id := 1, store_id := "store1", check_in_at := 87000 }]
        nextId := 6 }) := by
  refine ⟨⟨{ id := 0, user_id := 1, store_id := "store1", check_in_at := 84600 },
    by decide, by decide, by decide, by decide⟩, ?_, by decide⟩
  decide

/-- Witness for `checkIn_same_day_gate` at the concrete store `c2db`
(now = 87000, a fresh UTC day, so the duplicate set is empty). -/
theorem checkIn_same_day_gate_witness :
    (checkIn 87000 "L1" "store1" c2db = .error .conflict ↔
      ∃ v ∈ c2db.visits, v.user_id = 1 ∧ v.store_id = "store1" ∧
        dayStart 87000 ≤ v.check_in_at ∧ v.check_in_at ≤ dayStart 87000 + 86399) ∧
    ((¬ ∃ v ∈ c2db.visits, v.user_id = 1 ∧ v.store_id = "store1" ∧
        dayStart 87000 ≤ v.check_in_at ∧ v.check_in_at ≤ dayStart 87000 + 86399) →
      checkIn 87000 "L1" "store1" c2db =
        .ok (5, { c2db with
          visits := c2db.visits ++
            [{ id := 5, user_id := 1, store_id := "store1", check_in_at := 87000 }]
          nextId := 6 }) ∧
      ∀ v ∈ c2db.visits, v.id ≠ 5) :=
  checkIn_same_day_gate 87000 "L1" "store1" c2db
    { id := 1, email := "a@x.com", line_user_id := some "L1" }
    (by decide) (by decide) (by decide) (by decide) (by decide)

/- ### Account linking -/

/-- C5 (amended): `linkAccount` fails NotFound when no user carries the
email (performing no write); it fails ConflictError only when the GIVEN
LINE id is already bound to a DIFFERENT user — not when the email's user
already holds a different binding; otherwise it overwrites the email
user's `line_user_id` with the given id, silently reassigning any
previous different binding; and rebinding the id the user already holds
rewrites the same value, leaving the store unchanged. -/
theorem linkAccount_behavior (email lid : String) (s : DB)
    (hemail : email ≠ "") (hlid : lid ≠ "") :
    (getUserByEmail s.users email = none → linkLineAccount email lid s = .error .notFound) ∧
    (∀ u ex, getUserByEmail s.users email = some u →
      getUserByLineId s.users lid = some ex → ex.id ≠ u.id →
      linkLineAccount email lid s = .error .conflict) ∧
    (∀ u, getUserByEmail s.users email = some u →
      (getUserByLineId s.users lid = none ∨ getUserByLineId s.users lid = some u) →
      linkLineAccount email lid s =
        .ok (u.id, { s with users := s.users.map (fun x =>
          if x.id = u.id then { x with line_user_id := some lid } else x) })) ∧
    (∀ u, getUserByEmail s.users email = some u →
      u.line_user_id = some lid → (s.users.map (·.id)).Nodup →
      (getUserByLineId s.users lid = none ∨ getUserByLineId s.users lid = some u) →
      linkLineAccount email lid s = .ok (u.id, s)) := by
  have hpres : ¬ (email = "" ∨ lid = "") := by
    rintro (h | h)
    · exact hemail h
    · exact hlid h
  have hok : ∀ u, getUserByEmail s.users email = some u →
      (getUserByLineId s.users lid = none ∨ getUserByLineId s.users lid = some u) →
      linkLineAccount email lid s =
        .ok (u.id, { s with users := s.users.map (fun x =>
          if x.id = u.id then { x with line_user_id := some lid } else x) }) := by
    intro u hu hor
    rcases hor with hnone | hsome
    · simp only [linkLineAccount, if_neg hpres, hu, hnone]
      simp
    · simp only [linkLineAccount, if_neg hpres, hu, hsome]
      simp
  refine ⟨?_, ?_, hok, ?_⟩
  · intro hne
    simp only [linkLineAccount, if_neg hpres, hne]
  · intro u ex hu hex hne
    simp only [linkLineAccount, if_neg hpres, hu, hex]
    simp [hne]
  · intro u hu hulid hnodup hor
    have hmem_u : u ∈ s.users := List.mem_of_find?_eq_some hu
    have hinj := List.inj_on_of_nodup_map hnodup
    have hmap : s.users.map (fun x =>
        if x.id = u.id then { x with line_user_id := some lid } else x) = s.users := by
      have hcongr : s.users.map (fun x =>
          if x.id = u.id then { x with line_user_id := some lid } else x) =
          s.users.map id := by
        refine List.map_congr_left ?_
        intro x hx
        by_cases hxid : x.id = u.id
        · have hxu : x = u := hinj hx hmem_u hxid
          subst hxu
          rw [if_pos rfl]
          simp only [id_eq]
          obtain ⟨a, b, c, d⟩ := x
          change c = some lid at hulid
          rw [← hulid]
        · rw [if_neg hxid]
          rfl
      rw [hcongr, List.map_id]
    rw [hok u hu hor, hmap]

/-- C5 counterexample: the user found by email already has the DIFFERENT
binding "A", so the claim demands ConflictError; the code succeeds and
silently reassigns the binding to "B". -/
theorem linkAccount_reassign_counterexample :
    (∃ u ∈ c5db.users, u.email = "a@x.com" ∧ u.line_user_id = some "A") ∧
    linkLineAccount "a@x.com" "B" c5db =
      .ok (1, { c5db with
        users := [{ id := 1, email := "a@x.com", line_user_id := some "B" }] }) := by
  refine ⟨⟨{ id := 1, email := "a@x.com", line_user_id := some "A" }, by decide, by decide,
    by decide⟩, by decide⟩

/-- Witness for `linkAccount_behavior` with all four branches exercised
concretely: unknown email (Scenario D), LINE id held by another user,
plain success, and the idempotent rebind. -/
theorem linkAccount_behavior_witness :
    linkLineAccount "b@x.com" "B" c5db = .error .notFound ∧
    linkLineAccount "a@x.com" "A" { c5db with
        users := c5db.users ++ [{ id := 9, email := "c@x.com", line_user_id := some "Z" }] } =
      .ok (1, { c5db with
        users := c5db.users ++ [{ id := 9, email := "c@x.com", line_user_id := some "Z" }] }) ∧
    linkLineAccount "a@x.com" "B" c5db =
      .ok (1, { c5db with
        users := c5db.users.map (fun x =>
          if x.id = 1 then { x with line_user_id := some "B" } else x) }) :=
  ⟨(linkAccount_behavior "b@x.com" "B" c5db (by decide) (by decide)).1 (by decide),
   (linkAccount_behavior "a@x.com" "A" _ (by decide) (by decide)).2.2.2
     { id := 1, email := "a@x.com", line_user_id := some "A" }
     (by decide) (by decide) (by decide) (Or.inr (by decide)),
   (linkAccount_behavior "a@x.com" "B" c5db (by decide) (by decide)).2.2.1
     { id := 1, email := "a@x.com", line_user_id := some "A" }
     (by decide) (Or.inl (by decide))⟩

theorem submit_success_shape (vid : Nat) (vt vp : String) (ci cj : List String) (s : DB)
    (hvt : vt ≠ "") (hvp : vp ≠ "")
    (hvis : (s.visits.find? (fun v => decide (v.id = vid))).isSome = true) :
    submitVisitSurvey vid vt vp ci cj s =
      .ok (vid, { s with visits := s.visits.map (fun v =>
        if v.id = vid then
          { v with
            visit_type := some (if vt = "１人です" then "single" else "group")
            visit_purpose := some vp
            companion_industries := some (if vt = "１人です" then [] else ci)
            companion_job_types := some (if vt = "１人です" then [] else cj) }
        else v) }) := by
  have hpres : ¬ (vt = "" ∨ vp = "") := by
    rintro (h | h)
    · exact hvt h
    · exact hvp h
  obtain ⟨w, hw⟩ := Option.isSome_iff_exists.mp hvis
  simp only [submitVisitSurvey, if_neg hpres, hw]

/-- C4: submitting the survey with the single-visit answer (the literal
`'１人です'`) stores EMPTY companion arrays regardless of the arrays
passed in, marks the visit `single`/Surveyed, and a subsequent read of
that visit returns empty companion arrays. -/
theorem submit_single_forces_empty (vid : Nat) (vp : String) (ci cj : List String) (s : DB)
    (hvp : vp ≠ "")
    (hvis : (s.visits.find? (fun v => decide (v.id = vid))).isSome = true) :
    ∃ s2, submitVisitSurvey vid "１人です" vp ci cj s = .ok (vid, s2) ∧
      (∀ v ∈ s2.visits, v.id = vid →
        v.companion_industries = some [] ∧ v.companion_job_types = some [] ∧
        v.visit_type = some "single" ∧ v.visit_purpose = some vp) ∧
      visitCompanions s2 vid = ([], []) := by
  have hshape := submit_success_shape vid "１人です" vp ci cj s (by decide) hvp hvis
  refine ⟨_, hshape, ?_⟩
  have hforall : ∀ v ∈ (s.visits.map (fun v =>
      if v.id = vid then
        { v with
          visit_type := some (if "１人です" = "１人です" then "single" else "group")
          visit_purpose := some vp
          companion_industries := some (if "１人です" = "１人です" then [] else ci)
          companion_job_types := some (if "１人です" = "１人です" then [] else cj) }
      else v)), v.id = vid →
      v.companion_industries = some [] ∧ v.companion_job_types = some [] ∧
      v.visit_type = some "single" ∧ v.visit_purpose = some vp := by
    intro v hv hvid
    rw [List.mem_map] at hv
    obtain ⟨x, hx, rfl⟩ := hv
    by_cases hxid : x.id = vid
    · simp [if_pos hxid]
    · rw [if_neg hxid] at hvid ⊢
      exact absurd hvid hxid
  refine ⟨hforall, ?_⟩
  rw [visitCompanions]
  cases hf : ({ s with visits := s.visits.map (fun v =>
      if v.id = vid then
        { v with
          visit_type := some (if "１人です" = "１人です" then "single" else "group")
          visit_purpose := some vp
          companion_industries := some (if "１人です" = "１人です" then [] else ci)
          companion_job_types := some (if "１人です" = "１人です" then [] else cj) }
      else v) } : DB).visits.find? (fun v => decide (v.id = vid)) with
  | none => rfl
  | some w =>
    have hwid : w.id = vid := by
      have h1 := List.find?_some hf
      simpa using h1
    have hwmem : w ∈ (s.visits.map (fun v =>
        if v.id = vid then
          { v with
            visit_type := some (if "１人です" = "１人です" then "single" else "group")
            visit_purpose := some vp
            companion_industries := some (if "１人です" = "１人です" then [] else ci)
            companion_job_types := some (if "１人です" = "１人です" then [] else cj) }
        else v)) := List.mem_of_find?_eq_some hf
    obtain ⟨h1, h2, -, -⟩ := hforall w hwmem hwid
    show (w.companion_industries.getD [], w.companion_job_types.getD []) = ([], [])
    rw [h1, h2]
    rfl

theorem submit_ok_shape (vid : Nat) (vt vp : String) (ci cj : List String) (s : DB)
    (r : Nat) (s2 : DB)
    (h : submitVisitSurvey vid vt vp ci cj s = .ok (r, s2)) :
    r = vid ∧
    s2 = { s with visits := s.visits.map (fun v =>
      if v.id = vid then
        { v with
          visit_type := some (if vt = "１人です" then "single" else "group")
          visit_purpose := some vp
          companion_industries := some (if vt = "１人です" then [] else ci)
          companion_job_types := some (if vt = "１人です" then [] else cj) }
      else v) } := by
  by_cases hpres : (vt = "" ∨ vp = "")
  · rw [submitVisitSurvey, if_pos hpres] at h
    exact Except.noConfusion h
  · rw [submitVisitSurvey, if_neg hpres] at h
    cases hf : s.visits.find? (fun v => decide (v.id = vid)) with
    | none => rw [hf] at h; exact Except.noConfusion h
    | some w =>
      rw [hf] at h
      have h2 := Except.ok.inj h
      rw [Prod.mk.injEq] at h2
      exact ⟨h2.1.symm, h2.2.symm⟩

theorem checkIn_ok_shape (now : Nat) (lid sid : String) (s : DB) (r : Nat) (s2 : DB)
    (h : checkIn now lid sid s = .ok (r, s2)) :
    ∃ u : UserRec, r = s.nextId ∧
      s2 = { s with
        visits := s.visits ++
          [{ id := s.nextId, user_id := u.id, store_id := sid, check_in_at := now }]
        nextId := s.nextId + 1 } := by
  by_cases hpres : (lid = "" ∨ sid = "")
  · rw [checkIn, if_pos hpres] at h
    exact Except.noConfusion h
  · rw [checkIn, if_neg hpres] at h
    cases hu : getUserByLineId s.users lid with
    | none => rw [hu] at h; exact Except.noConfusion h
    | some u =>
      rw [hu] at h
      cases hst : s.stores.find? (fun st => decide (st.id = sid)) with
      | none => rw [hst] at h; exact Except.noConfusion h
      | some st =>
        rw [hst] at h
        simp only [] at h
        cases hdup : (s.visits.filter (fun v =>
            decide (v.user_id = u.id ∧
              dayStart now ≤ v.check_in_at ∧ v.check_in_at ≤ dayStart now + 86399))).find?
            (fun v => decide (v.store_id = sid)) with
        | some w => rw [hdup] at h; exact Except.noConfusion h
        | none =>
          rw [hdup] at h
          have h2 := Except.ok.inj h
          rw [Prod.mk.injEq] at h2
          exact ⟨u, h2.1.symm, h2.2.symm⟩

/-- C9: every visit written by `submitVisitSurvey` stores
`visit_type = 'single'` precisely when the input string is the literal
`'１人です'` and `'group'` for every other input (including the English
word "single"); and the invariant "`visit_type = single` implies empty
companion arrays" is preserved by both `checkIn` (which stores a null
`visit_type`) and `submitVisitSurvey`. -/
theorem visit_type_domain_invariant (s : DB) :
    (∀ vid vt vp ci cj r s2, submitVisitSurvey vid vt vp ci cj s = .ok (r, s2) →
      ∀ v ∈ s2.visits, v.id = vid →
        v.visit_type = some (if vt = "１人です" then "single" else "group")) ∧
    (CompanionInv s →
      (∀ now lid sid r s2, checkIn now lid sid s = .ok (r, s2) → CompanionInv s2) ∧
      (∀ vid vt vp ci cj r s2, submitVisitSurvey vid vt vp ci cj s = .ok (r, s2) →
        CompanionInv s2)) := by
  constructor
  · intro vid vt vp ci cj r s2 h v hv hvid
    obtain ⟨-, hs2⟩ := submit_ok_shape vid vt vp ci cj s r s2 h
    subst hs2
    rw [List.mem_map] at hv
    obtain ⟨x, hx, rfl⟩ := hv
    by_cases hxid : x.id = vid
    · rw [if_pos hxid]
    · rw [if_neg hxid] at hvid ⊢
      exact absurd hvid hxid
  · intro hinv
    constructor
    · intro now lid sid r s2 h v hv hvt
      obtain ⟨u, -, hs2⟩ := checkIn_ok_shape now lid sid s r s2 h
      subst hs2
      rcases List.mem_append.mp hv with hold | hnew
      · exact hinv v hold hvt
      · rw [List.mem_singleton] at hnew
        subst hnew
        exact absurd hvt (by simp)
    · intro vid vt vp ci cj r s2 h v hv hvt
      obtain ⟨-, hs2⟩ := submit_ok_shape vid vt vp ci cj s r s2 h
      subst hs2
      rw [List.mem_map] at hv
      obtain ⟨x, hx, rfl⟩ := hv
      by_cases hxid : x.id = vid
      · rw [if_pos hxid] at hvt ⊢
        by_cases hsingle : vt = "１人です"
        · simp [hsingle]
        · rw [if_neg hsingle] at hvt
          simp only [Option.some.injEq] at hvt
          exact absurd hvt (by decide)
      · rw [if_neg hxid] at hvt ⊢
        exact hinv x hx hvt

/-- Witness for `visit_type_domain_invariant`: submitting with the
English word "single" stores the mapped literal (which is "group"), and
the single-implies-empty invariant holds of the resulting store. -/
theorem visit_type_domain_invariant_witness :
    c9upd.visit_type = some (if "single" = "１人です" then "single" else "group") ∧
    CompanionInv c9s2 :=
  ⟨(visit_type_domain_invariant c9db).1 7 "single" "networking" ["IT"] ["dev"] 7 c9s2
      (by decide) c9upd (by decide) (by decide),
   ((visit_type_domain_invariant c9db).2 (by decide)).2 7 "single" "networking"
      ["IT"] ["dev"] 7 c9s2 (by decide)⟩

/-- Witness for `submit_single_forces_empty` at the concrete store
`c9db`, passing non-empty companion arrays that must be discarded. -/
theorem submit_single_forces_empty_witness :
    ∃ s2, submitVisitSurvey 7 "１人です" "networking" ["IT"] ["dev"] c9db = .ok (7, s2) ∧
      (∀ v ∈ s2.visits, v.id = 7 →
        v.companion_industries = some [] ∧ v.companion_job_types = some [] ∧
        v.visit_type = some "single" ∧ v.visit_purpose = some "networking") ∧
      visitCompanions s2 7 = ([], []) :=
  submit_single_forces_empty 7 "networking" ["IT"] ["dev"] c9db (by decide) (by decide)
